import Mathlib

/-!
Verification of src/pacsize.py, a pacman installed-size reporter.
The Python functions are shallowly embedded below. Float arithmetic in
bytes_humanize is modelled as exact rational arithmetic: the loop only
divides and multiplies by 1024, so every value it reaches on a byte count
below 2^53 is a dyadic rational that the Python float represents exactly,
and CPython formats floats by correctly rounded decimal conversion
(round half to even), which roundHalfEven reproduces.
-/

namespace Pacsize

/-- Rounding to the nearest integer, ties to even, as CPython does when
formatting a float with a fixed number of decimals. -/
def roundHalfEven (x : ℚ) : ℤ :=
  let n := Int.floor x
  if x - n < 1/2 then n
  else if 1/2 < x - n then n + 1
  else if n % 2 = 0 then n else n + 1

/-- Left-pads a digit to two places, for the decimal part of a size. -/
def padTwo (n : ℕ) : String :=
  if n < 10 then "0" ++ toString n else toString n

/-- Formatting of a non-negative value to exactly two decimal places, the
meaning of the Python format spec .02f on the values this program reaches. -/
def formatFixed2 (x : ℚ) : String :=
  let m := (roundHalfEven (x * 100)).toNat
  toString (m / 100) ++ "." ++ padTwo (m % 100)

/-- Unit strings iterated by the loop in bytes_humanize. -/
def unitPrefixes : List String := ["B", "KiB", "MiB", "GiB", "TiB"]

/-- Embedding of the for-loop of bytes_humanize: divide by 1024 at each
unit, stop early when the value drops below 1; on normal exhaustion the
last unit of the list remains current. Returns the final value of size
together with the current unit string. -/
def humanizeLoop (size : ℚ) : List String → ℚ × String
  | [] => (size, "")
  | [u] => (size / 1024, u)
  | u :: v :: rest =>
    let s := size / 1024
    if s < 1 then (s, u) else humanizeLoop s (v :: rest)

/-- Embedding of bytes_humanize from src/pacsize.py: run the loop, multiply
back by 1024, format to two decimals and append the unit. -/
def bytes_humanize (n : ℕ) : String :=
  let r := humanizeLoop (n : ℚ) unitPrefixes
  formatFixed2 (r.1 * 1024) ++ r.2

/-- Embedding of the Package dataclass of src/pacsize.py. -/
structure Package where
  name : String
  size : ℕ
deriving DecidableEq

/-- Embedding of packages.sort with key p.size: list.sort is a stable sort
by the key, and a stable sort over a total preorder has a unique result, so
insertion sort, which is stable, is an exact model. -/
def sortPackages (l : List Package) : List Package :=
  l.insertionSort (fun a b => a.size ≤ b.size)

/-- Embedding of the conditional shared by both printing branches of main:
humanized size when the -h flag is on, the decimal byte count otherwise. -/
def displaySize (human_readable : Bool) (n : ℕ) : String :=
  if human_readable then bytes_humanize n else toString n

/-- Embedding of the output of main from src/pacsize.py, as the list of
printed lines, as a function of the flags and of the package list returned
by the database query. -/
def mainOutput (human_readable show_total : Bool) (packages0 : List Package) :
    List String :=
  let packages := sortPackages packages0
  if show_total then
    let s := (packages.map (fun p => p.size)).sum
    [displaySize human_readable s]
  else
    packages.map (fun p => p.name ++ " " ++ displaySize human_readable p.size)

/-- ASCII lowercasing of a character, the effect of the default optionxform
of configparser on option names. -/
def lowerChar (c : Char) : Char :=
  if 'A' ≤ c ∧ c ≤ 'Z' then Char.ofNat (c.toNat + 32) else c

/-- ASCII lowercasing of an option name. -/
def lowerStr (s : String) : String := String.mk (s.data.map lowerChar)

/-- Outcome of reading the text of /etc/pacman.conf: absent file, malformed
file, or the parsed options of the options section as key-value pairs. -/
inductive ConfFile
  | missing
  | malformed
  | parsed (entries : List (String × String))

/-- Embedding of the default dictionary installed by read_dict inside
read_pacman_config, with option names lowercased as configparser stores
them. -/
def defaultOptions : List (String × String) :=
  [("rootdir", "/"), ("dbpath", "/var/lib/pacman"),
   ("cachedir", "/var/cache/pacman/pkg")]

/-- Modelled from the spec: the read method of configparser ignores a
missing file, surfaces a parse error on a malformed file, and otherwise
merges the parsed options over the present ones, file values overriding
defaults and option names lowercased; the merged mapping is represented so
that lookup prefers the file entries and falls back to the defaults. -/
def configRead (opts : List (String × String)) :
    ConfFile → Except String (List (String × String))
  | .missing => .ok opts
  | .malformed => .error "parse error"
  | .parsed entries => .ok ((entries.map (fun kv => (lowerStr kv.1, kv.2))) ++ opts)

/-- Embedding of read_pacman_config from src/pacsize.py: install the
defaults, then read /etc/pacman.conf. -/
def read_pacman_config (f : ConfFile) : Except String (List (String × String)) :=
  configRead defaultOptions f

/-- Modelled from the spec: config.get in the options section looks an
option up by its lowercased name. -/
def configGet (opts : List (String × String)) (key : String) : Option String :=
  (opts.find? (fun kv => kv.1 == lowerStr key)).map (fun kv => kv.2)

/-- Abstraction of the external alpm library for one run: whether
alpm_initialize succeeds for the given root directory and database path, and
the contents of the local database. -/
structure AlpmWorld where
  initOk : Bool
  localPackages : List Package

/-- Modelled from the spec: alpm_initialize opens a handle to the package
database and fails, returning NULL, when the root directory or database
path is invalid or inaccessible; NULL pointers are modelled as none. The
source passes ffi.NULL for the error out-parameter, so no error code
reaches the caller. -/
def alpm_initialize (w : AlpmWorld) : Option Unit :=
  if w.initOk then some () else none

/-- Modelled from the spec: alpm_get_localdb retrieves the local database
handle; on a NULL handle it yields NULL. -/
def alpm_get_localdb (handle : Option Unit) : Option Unit :=
  handle.bind (fun _ => some ())

/-- Embedding of the state of the ALPM wrapper object after its
initializer ran. -/
structure ALPM where
  handle : Option Unit
  local_db : Option Unit

/-- Embedding of the initializer of ALPM from src/pacsize.py: the result of
alpm_initialize is stored without any check and the local database handle is
fetched; no exception is raised and no branch exists for a NULL result. -/
def ALPM.init (w : AlpmWorld) : ALPM :=
  let h := alpm_initialize w
  { handle := h, local_db := alpm_get_localdb h }

/-- Embedding of ALPM.search_db on the pattern .* used by main: walk the
list returned by alpm_db_search into Package records; modelled from the
spec, the search over the local database returns all installed packages,
and a NULL database handle yields an empty result list. -/
def ALPM.search_db (w : AlpmWorld) (a : ALPM) : List Package :=
  match a.local_db with
  | none => []
  | some _ => w.localPackages

/-- Embedding of main from src/pacsize.py: read the configuration, take
RootDir and DBPath (config.get raises when a key is absent), open the
session, query, sort and print. The value is the list of printed lines, or
the error that terminates the run. -/
def mainRun (w : AlpmWorld) (f : ConfFile) (human_readable show_total : Bool) :
    Except String (List String) :=
  match read_pacman_config f with
  | .error e => .error e
  | .ok cfg =>
    match configGet cfg "RootDir", configGet cfg "DBPath" with
    | some _, some _ =>
      let a := ALPM.init w
      let packages := ALPM.search_db w a
      .ok (mainOutput human_readable show_total packages)
    | _, _ => .error "NoOptionError"

instance : IsTotal Package (fun a b => a.size ≤ b.size) :=
  ⟨fun a b => Nat.le_total a.size b.size⟩

instance : IsTrans Package (fun a b => a.size ≤ b.size) :=
  ⟨fun _ _ _ h1 h2 => Nat.le_trans h1 h2⟩

/-! Helper lemmas about which unit the humanizer loop selects. -/

lemma div_pow_lt_one (n : ℕ) (k : ℕ) (h : n < 1024^k) : ((n:ℚ)/1024^k) < 1 := by
  rw [div_lt_one (by positivity)]
  exact_mod_cast h

lemma one_le_div_pow (n : ℕ) (k : ℕ) (h : 1024^k ≤ n) : ¬(((n:ℚ)/1024^k) < 1) := by
  rw [not_lt, le_div_iff₀ (by positivity), one_mul]
  exact_mod_cast h

lemma humanize_in_B (n : ℕ) (h : n < 1024) :
    bytes_humanize n = formatFixed2 ((n:ℚ)/1024^0) ++ "B" := by
  have q1 : ((n:ℚ)/1024 < 1) := by
    have := div_pow_lt_one n 1 (by simpa using h)
    simpa using this
  simp only [bytes_humanize, unitPrefixes, humanizeLoop]
  rw [if_pos q1]
  rw [div_mul_cancel₀ _ (by norm_num : (1024:ℚ) ≠ 0)]
  norm_num

lemma humanize_in_KiB (n : ℕ) (h1 : 1024 ≤ n) (h2 : n < 1024^2) :
    bytes_humanize n = formatFixed2 ((n:ℚ)/1024^1) ++ "KiB" := by
  have q1 := one_le_div_pow n 1 (by simpa using h1)
  have q2 := div_pow_lt_one n 2 h2
  rw [show ((n:ℚ)/1024^1) = (n:ℚ)/1024 by norm_num] at q1
  simp only [bytes_humanize, unitPrefixes, humanizeLoop]
  rw [if_neg q1]
  rw [show ((n:ℚ)/1024/1024) = (n:ℚ)/1024^2 by rw [div_div]; norm_num]
  rw [if_pos q2]
  rw [show ((n:ℚ)/1024^2*1024) = (n:ℚ)/1024^1 by field_simp; ring]

lemma humanize_in_MiB (n : ℕ) (h1 : 1024^2 ≤ n) (h2 : n < 1024^3) :
    bytes_humanize n = formatFixed2 ((n:ℚ)/1024^2) ++ "MiB" := by
  have q1 := one_le_div_pow n 1 (le_trans (by norm_num) h1)
  have q2 := one_le_div_pow n 2 h1
  have q3 := div_pow_lt_one n 3 h2
  rw [show ((n:ℚ)/1024^1) = (n:ℚ)/1024 by norm_num] at q1
  simp only [bytes_humanize, unitPrefixes, humanizeLoop]
  rw [if_neg q1]
  rw [show ((n:ℚ)/1024/1024) = (n:ℚ)/1024^2 by rw [div_div]; norm_num]
  rw [if_neg q2]
  rw [show ((n:ℚ)/1024^2/1024) = (n:ℚ)/1024^3 by rw [div_div]; norm_num]
  rw [if_pos q3]
  rw [show ((n:ℚ)/1024^3*1024) = (n:ℚ)/1024^2 by field_simp; ring]

lemma humanize_in_GiB (n : ℕ) (h1 : 1024^3 ≤ n) (h2 : n < 1024^4) :
    bytes_humanize n = formatFixed2 ((n:ℚ)/1024^3) ++ "GiB" := by
  have q1 := one_le_div_pow n 1 (le_trans (by norm_num) h1)
  have q2 := one_le_div_pow n 2 (le_trans (by norm_num) h1)
  have q3 := one_le_div_pow n 3 h1
  have q4 := div_pow_lt_one n 4 h2
  rw [show ((n:ℚ)/1024^1) = (n:ℚ)/1024 by norm_num] at q1
  simp only [bytes_humanize, unitPrefixes, humanizeLoop]
  rw [if_neg q1]
  rw [show ((n:ℚ)/1024/1024) = (n:ℚ)/1024^2 by rw [div_div]; norm_num]
  rw [if_neg q2]
  rw [show ((n:ℚ)/1024^2/1024) = (n:ℚ)/1024^3 by rw [div_div]; norm_num]
  rw [if_neg q3]
  rw [show ((n:ℚ)/1024^3/1024) = (n:ℚ)/1024^4 by rw [div_div]; norm_num]
  rw [if_pos q4]
  rw [show ((n:ℚ)/1024^4*1024) = (n:ℚ)/1024^3 by field_simp; ring]

lemma humanize_in_TiB (n : ℕ) (h1 : 1024^4 ≤ n) :
    bytes_humanize n = formatFixed2 ((n:ℚ)/1024^4) ++ "TiB" := by
  have q1 := one_le_div_pow n 1 (le_trans (by norm_num) h1)
  have q2 := one_le_div_pow n 2 (le_trans (by norm_num) h1)
  have q3 := one_le_div_pow n 3 (le_trans (by norm_num) h1)
  have q4 := one_le_div_pow n 4 h1
  rw [show ((n:ℚ)/1024^1) = (n:ℚ)/1024 by norm_num] at q1
  simp only [bytes_humanize, unitPrefixes, humanizeLoop]
  rw [if_neg q1]
  rw [show ((n:ℚ)/1024/1024) = (n:ℚ)/1024^2 by rw [div_div]; norm_num]
  rw [if_neg q2]
  rw [show ((n:ℚ)/1024^2/1024) = (n:ℚ)/1024^3 by rw [div_div]; norm_num]
  rw [if_neg q3]
  rw [show ((n:ℚ)/1024^3/1024) = (n:ℚ)/1024^4 by rw [div_div]; norm_num]
  rw [if_neg q4]
  rw [show ((n:ℚ)/1024^4/1024*1024) = (n:ℚ)/1024^4 by field_simp; ring]

/-! Concrete evaluations of the humanizer. -/

lemma bh_zero : bytes_humanize 0 = "0.00B" := by
  norm_num [bytes_humanize, humanizeLoop, unitPrefixes, formatFixed2, roundHalfEven, padTwo]
  decide

lemma bh_1023 : bytes_humanize 1023 = "1023.00B" := by
  norm_num [bytes_humanize, humanizeLoop, unitPrefixes, formatFixed2, roundHalfEven, padTwo]
  decide

lemma bh_1024 : bytes_humanize 1024 = "1.00KiB" := by
  norm_num [bytes_humanize, humanizeLoop, unitPrefixes, formatFixed2, roundHalfEven, padTwo]
  decide

lemma bh_1M : bytes_humanize (1024*1024) = "1.00MiB" := by
  norm_num [bytes_humanize, humanizeLoop, unitPrefixes, formatFixed2, roundHalfEven, padTwo]
  decide

lemma bh_1536 : bytes_humanize 1536 = "1.50KiB" := by
  norm_num [bytes_humanize, humanizeLoop, unitPrefixes, formatFixed2, roundHalfEven, padTwo]
  decide

lemma bh_1024T : bytes_humanize (1024^5) = "1024.00TiB" := by
  norm_num [bytes_humanize, humanizeLoop, unitPrefixes, formatFixed2, roundHalfEven, padTwo]
  decide

/-! Helper lemmas about the sort. -/

lemma filter_orderedInsert (s : ℕ) (a : Package) (L : List Package) :
    (L.orderedInsert (fun x y => x.size ≤ y.size) a).filter (fun p => p.size == s) =
      if a.size = s then a :: L.filter (fun p => p.size == s)
      else L.filter (fun p => p.size == s) := by
  induction L with
  | nil =>
    by_cases hs : a.size = s <;>
      simp [List.orderedInsert, List.filter_cons, hs]
  | cons b L ih =>
    by_cases hab : a.size ≤ b.size
    · simp only [List.orderedInsert]
      rw [if_pos hab]
      by_cases hs : a.size = s <;> by_cases hbs : b.size = s <;>
        simp [List.filter_cons, hs, hbs]
    · simp only [List.orderedInsert]
      rw [if_neg hab, List.filter_cons, ih]
      by_cases hs : a.size = s
      · have hbs : ¬ (b.size = s) := by omega
        simp [List.filter_cons, hs, hbs]
      · by_cases hbs : b.size = s <;> simp [List.filter_cons, hs, hbs]

lemma filter_sortPackages (s : ℕ) (l : List Package) :
    (sortPackages l).filter (fun p => p.size == s) =
      l.filter (fun p => p.size == s) := by
  induction l with
  | nil => rfl
  | cons a l ih =>
    rw [show sortPackages (a :: l) =
        (sortPackages l).orderedInsert (fun x y => x.size ≤ y.size) a from rfl,
      filter_orderedInsert s a, ih]
    by_cases hs : a.size = s <;> simp [List.filter_cons, hs]

/-! The claims. -/

/-- C1 counterexample: at 1024^5 bytes the humanizer prints 1024.00TiB, yet
no unit of the sequence satisfies the stated rule there: for every unit
index, dividing the scaled value by 1024 once more leaves it at 1 or
above. -/
theorem C1_counterexample_tib_cap :
    bytes_humanize (1024^5) = "1024.00TiB" ∧
    ∀ k, k < unitPrefixes.length → ¬((((1024^5 : ℕ)):ℚ)/1024^(k+1) < 1) := by
  refine ⟨bh_1024T, ?_⟩
  intro k hk
  have hk5 : k + 1 ≤ 5 := by
    simp only [unitPrefixes, List.length] at hk
    omega
  exact one_le_div_pow _ _ (Nat.pow_le_pow_right (by norm_num) hk5)

/-- C1 (amended): for every byte count below 1024^5 the humanizer renders it
in the unit of the sequence B, KiB, MiB, GiB, TiB such that dividing the
scaled value by 1024 one more time would make it less than 1, with the
scaled value formatted to two decimal places; 0, 1023, 1024, 1024*1024 and
1536 map to 0.00B, 1023.00B, 1.00KiB, 1.00MiB and 1.50KiB. At 1024^5 and
above no unit of the sequence satisfies the rule and the unit saturates at
TiB. -/
theorem C1_humanize_unit_rule :
    (∀ n : ℕ, n < 1024^5 →
      ∃ k, ∃ hk : k < unitPrefixes.length,
        bytes_humanize n = formatFixed2 ((n:ℚ)/1024^k) ++ unitPrefixes.get ⟨k, hk⟩ ∧
        (n:ℚ)/1024^(k+1) < 1) ∧
    bytes_humanize 0 = "0.00B" ∧ bytes_humanize 1023 = "1023.00B" ∧
    bytes_humanize 1024 = "1.00KiB" ∧ bytes_humanize (1024*1024) = "1.00MiB" ∧
    bytes_humanize 1536 = "1.50KiB" := by
  refine ⟨?_, bh_zero, bh_1023, bh_1024, bh_1M, bh_1536⟩
  intro n h5
  by_cases c1 : n < 1024
  · refine ⟨0, by simp [unitPrefixes], ?_, ?_⟩
    · rw [humanize_in_B n c1]
      rfl
    · simpa using div_pow_lt_one n 1 (by simpa using c1)
  by_cases c2 : n < 1024^2
  · refine ⟨1, by simp [unitPrefixes], ?_, ?_⟩
    · rw [humanize_in_KiB n (Nat.le_of_not_lt c1) c2]
      rfl
    · simpa using div_pow_lt_one n 2 c2
  by_cases c3 : n < 1024^3
  · refine ⟨2, by simp [unitPrefixes], ?_, ?_⟩
    · rw [humanize_in_MiB n (Nat.le_of_not_lt c2) c3]
      rfl
    · simpa using div_pow_lt_one n 3 c3
  by_cases c4 : n < 1024^4
  · refine ⟨3, by simp [unitPrefixes], ?_, ?_⟩
    · rw [humanize_in_GiB n (Nat.le_of_not_lt c3) c4]
      rfl
    · simpa using div_pow_lt_one n 4 c4
  · refine ⟨4, by simp [unitPrefixes], ?_, ?_⟩
    · rw [humanize_in_TiB n (Nat.le_of_not_lt c4)]
      rfl
    · simpa using div_pow_lt_one n 5 h5

/-- C1 witness: the amended rule applied at 1536 bytes. -/
theorem C1_witness :
    ∃ k, ∃ hk : k < unitPrefixes.length,
      bytes_humanize 1536 =
        formatFixed2 (((1536 : ℕ):ℚ)/1024^k) ++ unitPrefixes.get ⟨k, hk⟩ ∧
      ((1536 : ℕ):ℚ)/1024^(k+1) < 1 :=
  C1_humanize_unit_rule.1 1536 (by norm_num)

/-- C2: for every input list of (name, size) package records, the list after
sorting is non-decreasing in size: each element has size at most the size of
the element that follows it. -/
theorem C2_sorted_nondecreasing (l : List Package) :
    List.Chain' (fun a b => a.size ≤ b.size) (sortPackages l) := by
  have h : List.Pairwise (fun a b : Package => a.size ≤ b.size)
      (l.insertionSort (fun a b => a.size ≤ b.size)) :=
    List.sorted_insertionSort (fun a b : Package => a.size ≤ b.size) l
  exact h.chain'

/-- C8: the sorted list is a permutation of the input, and packages of equal
sizes keep their relative input order: for every size value, filtering the
sorted list by that size gives the same subsequence as filtering the input. -/
theorem C8_sort_perm_stable (l : List Package) :
    (sortPackages l).Perm l ∧
    ∀ s : ℕ, (sortPackages l).filter (fun p => p.size == s) =
      l.filter (fun p => p.size == s) :=
  ⟨List.perm_insertionSort _ l, fun s => filter_sortPackages s l⟩

/-- C3: in total mode the single printed line is the arithmetic sum of all
package sizes, rendered by displaySize, and per-package mode renders each
size with the same displaySize rule: decimal when human-readable is off,
humanized when it is on. -/
theorem C3_total_is_sum_formatted (human_readable : Bool) (l : List Package) :
    mainOutput human_readable true l =
      [displaySize human_readable ((l.map (fun p => p.size)).sum)] ∧
    mainOutput human_readable false l =
      (sortPackages l).map
        (fun p => p.name ++ " " ++ displaySize human_readable p.size) := by
  constructor
  · show [displaySize human_readable (((sortPackages l).map (fun p => p.size)).sum)] = _
    have hs : ((sortPackages l).map (fun p => p.size)).sum =
        (l.map (fun p => p.size)).sum :=
      ((List.perm_insertionSort _ l).map (fun p => p.size)).sum_eq
    rw [hs]
  · rfl

/-- C4: evaluation of the code at the failing input. When the paths are
invalid, alpm_initialize fails and returns NULL, yet the run does not
terminate with an error: the NULL handle is stored unchecked, the query
yields the empty list, and the program completes normally, printing an
empty listing in per-package mode and a zero total in total mode. -/
theorem C4_init_failure_not_fatal (ps : List Package) (hr : Bool) :
    alpm_initialize ⟨false, ps⟩ = none ∧
    mainRun ⟨false, ps⟩ .missing hr false = .ok [] ∧
    mainRun ⟨false, ps⟩ .missing false true = .ok ["0"] ∧
    mainRun ⟨false, ps⟩ .missing true true = .ok ["0.00B"] := by
  refine ⟨rfl, rfl, ?_, ?_⟩
  · show (Except.ok [displaySize false 0] : Except String (List String)) = _
    rfl
  · show (Except.ok [displaySize true 0] : Except String (List String)) = _
    simp [displaySize, bh_zero]

/-- C6: with the configuration file missing, or present without RootDir and
DBPath keys, reading succeeds and the lookups yield the defaults, root
directory / and database path /var/lib/pacman; a malformed file surfaces a
parse error. -/
theorem C6_config_defaults (entries : List (String × String))
    (h : ∀ kv ∈ entries, lowerStr kv.1 ≠ "rootdir" ∧ lowerStr kv.1 ≠ "dbpath") :
    (∃ opts, read_pacman_config .missing = .ok opts ∧
      configGet opts "RootDir" = some "/" ∧
      configGet opts "DBPath" = some "/var/lib/pacman") ∧
    (∃ opts, read_pacman_config (.parsed entries) = .ok opts ∧
      configGet opts "RootDir" = some "/" ∧
      configGet opts "DBPath" = some "/var/lib/pacman") ∧
    (∃ e, read_pacman_config .malformed = .error e) := by
  have hnone : ∀ key : String,
      (∀ kv ∈ entries, lowerStr kv.1 ≠ key) →
      (entries.map (fun kv => (lowerStr kv.1, kv.2))).find?
        (fun kv => kv.1 == key) = none := by
    intro key hne
    rw [List.find?_eq_none]
    intro x hx
    simp only [List.mem_map] at hx
    obtain ⟨kv, hkv, rfl⟩ := hx
    simp only [beq_iff_eq]
    exact hne kv hkv
  refine ⟨⟨defaultOptions, rfl, by decide, by decide⟩, ?_, ⟨"parse error", rfl⟩⟩
  refine ⟨_, rfl, ?_, ?_⟩
  · simp only [configGet, List.find?_append]
    rw [show lowerStr "RootDir" = "rootdir" from by decide,
      hnone "rootdir" (fun kv hkv => (h kv hkv).1)]
    decide
  · simp only [configGet, List.find?_append]
    rw [show lowerStr "DBPath" = "dbpath" from by decide,
      hnone "dbpath" (fun kv hkv => (h kv hkv).2)]
    decide

/-- C6 witness: the empty parsed file has neither key, and the conclusion
holds there. -/
theorem C6_witness :
    (∃ opts, read_pacman_config .missing = .ok opts ∧
      configGet opts "RootDir" = some "/" ∧
      configGet opts "DBPath" = some "/var/lib/pacman") ∧
    (∃ opts, read_pacman_config (.parsed []) = .ok opts ∧
      configGet opts "RootDir" = some "/" ∧
      configGet opts "DBPath" = some "/var/lib/pacman") ∧
    (∃ e, read_pacman_config .malformed = .error e) :=
  C6_config_defaults [] (by simp)

/-- C7: on the empty package set, per-package mode prints nothing, and total
mode prints exactly 0 with human-readable off and exactly 0.00B with
human-readable on. -/
theorem C7_empty_package_set :
    (∀ human_readable : Bool, mainOutput human_readable false [] = []) ∧
    mainOutput false true [] = ["0"] ∧ mainOutput true true [] = ["0.00B"] := by
  refine ⟨fun _ => rfl, rfl, ?_⟩
  show [displaySize true 0] = ["0.00B"]
  simp [displaySize, bh_zero]

/-- C9: for every byte count of at least 1024^4 the humanizer uses the unit
TiB with the scaled value equal to the byte count divided by 1024^4, even
when that value reaches 1024 or more: there is no larger unit. -/
theorem C9_saturates_at_TiB (n : ℕ) (h : 1024^4 ≤ n) :
    bytes_humanize n = formatFixed2 ((n:ℚ)/1024^4) ++ "TiB" :=
  humanize_in_TiB n h

/-- C9 witness: at 1024^5 bytes the rule applies, the scaled value is 1024,
past the top of the range of every smaller unit, and the output is
1024.00TiB. -/
theorem C9_witness : bytes_humanize (1024^5) = "1024.00TiB" := by
  rw [C9_saturates_at_TiB (1024^5) (by norm_num)]
  norm_num [formatFixed2, roundHalfEven, padTwo]
  decide

/-- C10: the human-readable flag does not change which packages are printed
or their order: the two per-package outputs have the same length, and at
every position either both are absent or both lines carry the same package
name, differing only in the size text. -/
theorem C10_human_flag_frame (l : List Package) :
    (mainOutput true false l).length = (mainOutput false false l).length ∧
    ∀ i : ℕ,
      ((mainOutput true false l)[i]? = none ∧ (mainOutput false false l)[i]? = none) ∨
      ∃ nm s1 s2, (mainOutput true false l)[i]? = some (nm ++ " " ++ s1) ∧
        (mainOutput false false l)[i]? = some (nm ++ " " ++ s2) := by
  have e1 : mainOutput true false l =
      (sortPackages l).map (fun p => p.name ++ " " ++ displaySize true p.size) := rfl
  have e2 : mainOutput false false l =
      (sortPackages l).map (fun p => p.name ++ " " ++ displaySize false p.size) := rfl
  refine ⟨by rw [e1, e2]; simp, ?_⟩
  intro i
  rw [e1, e2, List.getElem?_map, List.getElem?_map]
  cases h : (sortPackages l)[i]? with
  | none => exact Or.inl ⟨rfl, rfl⟩
  | some p =>
    exact Or.inr ⟨p.name, displaySize true p.size, displaySize false p.size, rfl, rfl⟩

end Pacsize
